import Mathlib

/-!
Verification development for a set of browser-based PDF viewing widgets.

The development shallowly embeds the geometric and stateful core of the
repository: the text-run projection of `renderPageAsHTML`
(src/components/HTMLPDFViewer.tsx), the responsive-scale computation
`calculateScale` (src/components/ScrollablePDFViewer.tsx and the react-pdf
variant), the paragraph clustering `groupSpansIntoParagraphs` and bounding-box
computation `calculateParagraphBounds` of the interactive overlay, the
paragraph selection handler `handleClick`, the outline destination resolution
`handleItemClick`, the page navigation `goToPage` family, and the container
mutation order of overlapping `renderPageAsHTML` calls.

JavaScript numbers are modelled as rationals (`ℚ`); JavaScript strings as
`List Char`; asynchronous renders as event traces over the page container.
-/

namespace PDFViewer

/-- A DOMRect-like record for a positioned text span, as obtained from
`getBoundingClientRect()` in `groupSpansIntoParagraphs` and
`calculateParagraphBounds` (src/unnamed/part_002). -/
structure Rect where
  left : ℚ
  right : ℚ
  top : ℚ
  bottom : ℚ
  height : ℚ
  deriving DecidableEq, Repr

/-- The screen-space placement of one text run, as computed by
`renderPageAsHTML` in src/components/HTMLPDFViewer.tsx (lines 234-246). -/
structure ScreenPos where
  left : ℚ
  top : ℚ
  fontSize : ℚ
  deriving DecidableEq, Repr

/-- A text-run transform: the six entries of the PDF affine transform
`item.transform` (scale-x, skew-y, skew-x, scale-y, translate-x,
translate-y). -/
structure Transform where
  a : ℚ
  b : ℚ
  c : ℚ
  d : ℚ
  e : ℚ
  f : ℚ
  deriving DecidableEq, Repr

/-- Projection of a text run's transform into screen space, embedding the
computation of `renderPageAsHTML` (src/components/HTMLPDFViewer.tsx
lines 234-246):
`x = transform[4]`, `y = viewport.height - transform[5]`,
`scaleY = Math.abs(transform[3])`, `fontSize = Math.max(scaleY, 8)`,
with the element placed at `left = x`, `top = y - fontSize`. -/
def projectRun (t : Transform) (viewportHeight : ℚ) : ScreenPos :=
  let x := t.e
  let y := viewportHeight - t.f
  let scaleY := |t.d|
  let fontSize := max scaleY 8
  { left := x, top := y - fontSize, fontSize := fontSize }

/-- Responsive scale computation `calculateScale`
(src/components/ScrollablePDFViewer.tsx lines 52-57, identical in
src/unnamed/part_002 lines 31-37):
`if (!pageWidth || !containerWidth) return scale;`
`const maxWidth = containerWidth - 32;`
`const responsiveScale = Math.min(scale, maxWidth / pageWidth);`
`return Math.max(responsiveScale, 0.3);`.
A JavaScript falsy numeric width is modelled as `0`. -/
def calculateScale (scale pageWidth containerWidth : ℚ) : ℚ :=
  if pageWidth = 0 ∨ containerWidth = 0 then scale
  else
    let maxWidth := containerWidth - 32
    let responsiveScale := min scale (maxWidth / pageWidth)
    max responsiveScale (3/10)

/-- The span comparator of `groupSpansIntoParagraphs`
(src/unnamed/part_002 lines 197-207): spans whose `top` coordinates differ by
less than 10 are ordered by `left`, otherwise by `top`. The JavaScript
comparator returns a signed number; here its sign is captured by the value. -/
def spansCompare (a b : Rect) : ℚ :=
  if |a.top - b.top| < 10 then a.left - b.left else a.top - b.top

/-- The stable sort performed on the span array by `groupSpansIntoParagraphs`.
JavaScript `Array.prototype.sort` is a stable sort driven by the comparator;
it is modelled by insertion sort on the relation `spansCompare a b ≤ 0`. -/
def sortSpans (spans : List Rect) : List Rect :=
  List.insertionSort (fun a b => spansCompare a b ≤ 0) spans

/-- The sweep loop of `groupSpansIntoParagraphs`
(src/unnamed/part_002 lines 212-235): for each next span, the gap
`rect.top - lastBottom` is compared with `rect.height * 0.8`; a larger gap
closes the current paragraph and starts a new one holding just this span,
otherwise the span is appended to the current paragraph; in both branches
`lastBottom` becomes `Math.max(lastBottom, rect.bottom)`. The final
paragraph is pushed after the loop. -/
def sweep (cur : List Rect) (lastBottom : ℚ) : List Rect → List (List Rect)
  | [] => [cur]
  | r :: rest =>
    if r.top - lastBottom > r.height * (8/10) then
      cur :: sweep [r] (max lastBottom r.bottom) rest
    else
      sweep (cur ++ [r]) (max lastBottom r.bottom) rest

/-- Paragraph clustering `groupSpansIntoParagraphs`
(src/unnamed/part_002 lines 190-238): an empty span list yields no
paragraphs; otherwise the spans are stably sorted by `spansCompare` and the
sweep starts with the first sorted span as the sole member of the current
paragraph, with `lastBottom` initialised to its `bottom`. -/
def groupSpansIntoParagraphs (spans : List Rect) : List (List Rect) :=
  match sortSpans spans with
  | [] => []
  | s :: rest => sweep [s] s.bottom rest

/-- A paragraph wrapper bounding box, as produced by
`calculateParagraphBounds` (src/unnamed/part_002 lines 241-261). -/
structure Bounds where
  left : ℚ
  top : ℚ
  width : ℚ
  height : ℚ
  deriving DecidableEq, Repr

/-- Minimum of the `left` coordinates of a nonempty span list, mirroring
`Math.min(...rects.map((r) => r.left))`. -/
def minLefts (s : Rect) (rest : List Rect) : ℚ :=
  rest.foldl (fun acc r => min acc r.left) s.left

/-- Minimum of the `top` coordinates of a nonempty span list. -/
def minTops (s : Rect) (rest : List Rect) : ℚ :=
  rest.foldl (fun acc r => min acc r.top) s.top

/-- Maximum of the `right` coordinates of a nonempty span list. -/
def maxRights (s : Rect) (rest : List Rect) : ℚ :=
  rest.foldl (fun acc r => max acc r.right) s.right

/-- Maximum of the `bottom` coordinates of a nonempty span list. -/
def maxBottoms (s : Rect) (rest : List Rect) : ℚ :=
  rest.foldl (fun acc r => max acc r.bottom) s.bottom

/-- Bounding-box computation `calculateParagraphBounds`
(src/unnamed/part_002 lines 241-261): for an empty span list a zero box;
otherwise `left`, `top`, `right`, `bottom` are the extremes of the spans'
client rects shifted into container coordinates by the container rect's
`left`/`top`, and the returned box is expanded by the fixed padding
`left - 4`, `top - 2`, `width = right - left + 8`, `height = bottom - top + 4`. -/
def calculateParagraphBounds (spans : List Rect) (cLeft cTop : ℚ) : Bounds :=
  match spans with
  | [] => { left := 0, top := 0, width := 0, height := 0 }
  | s :: rest =>
    let left := minLefts s rest - cLeft
    let top := minTops s rest - cTop
    let right := maxRights s rest - cLeft
    let bottom := maxBottoms s rest - cTop
    { left := left - 4
      top := top - 2
      width := right - left + 8
      height := bottom - top + 4 }

/-- Selection state of the paragraph wrappers of one text layer: one
`selected` flag per wrapper, in document order (the `selected-paragraph`
class of src/unnamed/part_002). -/
abbrev Selection := List Bool

/-- The paragraph click handler `handleClick`
(src/unnamed/part_002 lines 110-170): a click on wrapper `i` first removes
the selection from every other wrapper, then toggles wrapper `i` based on
whether it was selected before the click. -/
def handleClick : Selection → ℕ → Selection
  | [], _ => []
  | b :: rest, 0 => (!b) :: rest.map (fun _ => false)
  | _ :: rest, i + 1 => false :: handleClick rest i

/-- The global click handler `handleGlobalClick`
(src/unnamed/part_002 lines 352-387) for a click outside every paragraph
wrapper and outside the text layer: the selection is removed from every
wrapper. -/
def handleGlobalClick (sel : Selection) : Selection :=
  sel.map (fun _ => false)

/-- One user click: either on paragraph wrapper `i`, or outside every
wrapper (handled by `handleGlobalClick`). -/
inductive Click where
  | onRegion (i : ℕ)
  | outside
  deriving DecidableEq, Repr

/-- Apply one click to the selection state. -/
def applyClick (sel : Selection) : Click → Selection
  | .onRegion i => handleClick sel i
  | .outside => handleGlobalClick sel

/-- Apply a sequence of clicks starting from a given selection state. -/
def applyClicks (sel : Selection) (clicks : List Click) : Selection :=
  clicks.foldl applyClick sel

/-- The first element of an outline destination array, as examined by
`handleItemClick` (src/unnamed/part_001 lines 255-321): either a page
reference object (an object with a truthy `num` field), a plain number
(a zero-based page index), or anything else. -/
inductive DestElem where
  | ref (r : ℕ)
  | num (n : ℤ)
  | other
  deriving DecidableEq, Repr

/-- An outline item's `dest` field: absent/null, a direct destination array
(represented by its first element), or a named destination. -/
inductive Dest where
  | noDest
  | direct (first : DestElem)
  | named (name : ℕ)
  deriving DecidableEq, Repr

/-- The asynchronous document collaborators used by `handleItemClick`:
`getPageIndex(ref)` and `getDestination(name)`. A call that throws, returns
null, or returns an array with a falsy first element is modelled as `none`
(the source catches the exception and leaves the target unresolved). -/
structure DocEnv where
  pageIndex : ℕ → Option ℕ
  namedDest : ℕ → Option DestElem

/-- Destination resolution performed by `handleItemClick`
(src/unnamed/part_001 lines 260-299), yielding the 1-based target page
number, or `none` when the destination cannot be resolved. In the named
branch the source guards on `namedDest[0]` being truthy, so a resolved
first element that is the number 0 is discarded there; in the direct branch
`typeof item.dest[0] === 'number'` accepts 0. -/
def resolveTarget (env : DocEnv) : Dest → Option ℤ
  | .noDest => none
  | .direct (.ref r) => (env.pageIndex r).map (fun i => (i : ℤ) + 1)
  | .direct (.num n) => some (n + 1)
  | .direct .other => none
  | .named nm =>
    match env.namedDest nm with
    | none => none
    | some (.ref r) => (env.pageIndex r).map (fun i => (i : ℤ) + 1)
    | some (.num n) => if n = 0 then none else some (n + 1)
    | some .other => none

/-- The page bound `numPages || 1` used by `handleItemClick` and `goToPage`:
a null or zero page count is replaced by 1. -/
def pageBound : Option ℤ → ℤ
  | none => 1
  | some n => if n = 0 then 1 else n

/-- The outline item click handler `handleItemClick`
(src/unnamed/part_001 lines 255-321): the destination is resolved to a
target page number; navigation (`setCurrentPage`) happens only when the
target is truthy and within `[1, numPages || 1]`, otherwise the current
page is left unchanged. All exceptions are caught inside the handler, so
the function is total and never raises to the caller. -/
def handleItemClick (env : DocEnv) (dest : Dest) (numPages : Option ℤ)
    (currentPage : ℤ) : ℤ :=
  match resolveTarget env dest with
  | none => currentPage
  | some n =>
    if n ≠ 0 ∧ 1 ≤ n ∧ n ≤ pageBound numPages then n else currentPage

/-- The page jump `goToPage` (src/unnamed/part_001 lines 386-390, identical
in src/unnamed/part_002 lines 448-452): `setCurrentPage(pageNum)` only when
`pageNum >= 1 && pageNum <= (numPages || 1)`. -/
def goToPage (numPages : Option ℤ) (currentPage pageNum : ℤ) : ℤ :=
  if 1 ≤ pageNum ∧ pageNum ≤ pageBound numPages then pageNum else currentPage

/-- The bounded increment `goToNextPage` of src/components/PDFViewer.tsx
(lines 366-370): advance only while `currentPage < totalPages`. -/
def goToNextPage (totalPages currentPage : ℤ) : ℤ :=
  if currentPage < totalPages then currentPage + 1 else currentPage

/-- The bounded decrement `goToPreviousPage` of src/components/PDFViewer.tsx
(lines 372-376): go back only while `currentPage > 1`. -/
def goToPreviousPage (currentPage : ℤ) : ℤ :=
  if currentPage > 1 then currentPage - 1 else currentPage

/-- A navigation request in the part_001/part_002 viewers: `nextPage` and
`prevPage` delegate to `goToPage` with `currentPage ± 1`; the page-jump
input calls `goToPage` with an arbitrary integer. -/
inductive NavOp where
  | goto (k : ℤ)
  | next
  | prev
  deriving DecidableEq, Repr

/-- One navigation step on the current page. -/
def navStep (numPages : Option ℤ) (currentPage : ℤ) : NavOp → ℤ
  | .goto k => goToPage numPages currentPage k
  | .next => goToPage numPages currentPage (currentPage + 1)
  | .prev => goToPage numPages currentPage (currentPage - 1)

/-- Run a sequence of navigation requests starting from page 1 (the page the
viewers set on document load). -/
def runNav (numPages : Option ℤ) (ops : List NavOp) : ℤ :=
  ops.foldl (navStep numPages) 1

/-- JavaScript `String.prototype.trim` whitespace: the WhiteSpace and
LineTerminator code points removed by `item.str.trim()` in
`renderPageAsHTML` (src/components/HTMLPDFViewer.tsx line 229). -/
def jsWhitespace (c : Char) : Bool :=
  c.toNat = 0x20 || c.toNat = 0x09 || c.toNat = 0x0a || c.toNat = 0x0d ||
  c.toNat = 0x0b || c.toNat = 0x0c ||
  c.toNat = 0xa0 || c.toNat = 0x1680 ||
  (0x2000 ≤ c.toNat && c.toNat ≤ 0x200a) ||
  c.toNat = 0x2028 || c.toNat = 0x2029 || c.toNat = 0x202f ||
  c.toNat = 0x205f || c.toNat = 0x3000 || c.toNat = 0xfeff

/-- JavaScript `String.prototype.trim` on a string modelled as a character
list: leading and trailing whitespace removed. -/
def jsTrim (s : List Char) : List Char :=
  (((s.dropWhile jsWhitespace).reverse).dropWhile jsWhitespace).reverse

/-- One item of `textContent.items` as consumed by `renderPageAsHTML`:
its string content and its transform. -/
structure TextItem where
  str : List Char
  transform : Transform
  deriving DecidableEq, Repr

/-- One element of the HTML text layer: the run's string and its computed
screen placement. -/
structure TextElement where
  str : List Char
  pos : ScreenPos
  deriving DecidableEq, Repr

/-- Construction of the HTML text layer by `renderPageAsHTML`
(src/components/HTMLPDFViewer.tsx lines 228-258): each text item whose
string trims to empty (`if (!item.str.trim()) return;`) produces no
element; every other item produces one positioned element, in input order. -/
def buildTextLayer (viewportHeight : ℚ) (items : List TextItem) :
    List TextElement :=
  items.filterMap (fun it =>
    if (jsTrim it.str).isEmpty then none
    else some { str := it.str, pos := projectRun it.transform viewportHeight })

/-- A mutation of the page container performed by `renderPageAsHTML`
(src/components/HTMLPDFViewer.tsx lines 167-268): the synchronous
`containerRef.current.innerHTML = ''` at entry, and the final
`containerRef.current.appendChild(pageContainer)` carrying the page surface
rendered for a given viewport scale. -/
inductive RenderEvent where
  | clear
  | append (vp : ℚ)
  deriving DecidableEq, Repr

/-- Effect of one container mutation: clearing empties the container,
appending adds the new page surface at the end. The container is the list
of page surfaces it holds, each identified by its viewport scale. -/
def applyRenderEvent (c : List ℚ) : RenderEvent → List ℚ
  | .clear => []
  | .append vp => c ++ [vp]

/-- Replay a sequence of container mutations. -/
def execTrace (c : List ℚ) (events : List RenderEvent) : List ℚ :=
  events.foldl applyRenderEvent c

/-- The synchronous prefix of a `renderPageAsHTML` call: it clears the
container before its first await. -/
def renderStart : List RenderEvent := [RenderEvent.clear]

/-- The completion of a `renderPageAsHTML` call for a given viewport scale:
after its awaits resolve, it appends its page surface to the container. -/
def renderFinish (vp : ℚ) : List RenderEvent := [RenderEvent.append vp]

/-- The container mutation order when a second `renderPageAsHTML` call for
the same page (viewport `vpB`) is issued while an earlier call (viewport
`vpA`) is still in flight, and the earlier call settles last: both
synchronous clears run first in call order, then the second call's append,
then the first call's append. -/
def overlappingRenderTrace (vpA vpB : ℚ) : List RenderEvent :=
  renderStart ++ renderStart ++ renderFinish vpB ++ renderFinish vpA

/-- Example run: top 100, height 10 (claim C3's first run). -/
def exRun1 : Rect := { left := 0, right := 40, top := 100, bottom := 110, height := 10 }

/-- Example run: top 110, height 10 (claim C3's second run). -/
def exRun2 : Rect := { left := 0, right := 40, top := 110, bottom := 120, height := 10 }

/-- Example run: top 100 again, height 10, to the right of the first
(claim C3's third run). -/
def exRun3 : Rect := { left := 50, right := 90, top := 100, bottom := 110, height := 10 }

/-- Example run: top 140, height 10 (claim C3's fourth run). -/
def exRun4 : Rect := { left := 0, right := 40, top := 140, bottom := 150, height := 10 }

/-- A document environment in which every destination lookup fails: the
renderer throws or returns null for every named destination and page
reference. -/
def brokenEnv : DocEnv := { pageIndex := fun _ => none, namedDest := fun _ => none }

end PDFViewer

namespace PDFViewer

/-- C4: for every text run transform and every viewport of positive height,
`projectRun` places the run at `left = transform[4]`,
`top = height - transform[5] - fontSize`, with
`fontSize = max(|transform[3]|, 8)`. -/
theorem projectRun_spec (t : Transform) (viewportHeight : ℚ)
    (_hH : 0 < viewportHeight) :
    (projectRun t viewportHeight).left = t.e ∧
    (projectRun t viewportHeight).fontSize = max |t.d| 8 ∧
    (projectRun t viewportHeight).top
      = viewportHeight - t.f - (projectRun t viewportHeight).fontSize :=
  ⟨rfl, rfl, rfl⟩

/-- Witness for C4 at the claim's concrete input: transform
`[12, 0, 0, 12, 50, 700]` with viewport height 800 yields `fontSize = 12`,
`top = 88`, `left = 50`. -/
theorem projectRun_spec_witness :
    (0 : ℚ) < 800 ∧
    (projectRun ⟨12, 0, 0, 12, 50, 700⟩ 800).left = 50 ∧
    (projectRun ⟨12, 0, 0, 12, 50, 700⟩ 800).fontSize = 12 ∧
    (projectRun ⟨12, 0, 0, 12, 50, 700⟩ 800).top = 88 := by
  obtain ⟨h1, h2, h3⟩ := projectRun_spec ⟨12, 0, 0, 12, 50, 700⟩ 800 (by norm_num)
  have habs : |(12 : ℚ)| = 12 := abs_of_nonneg (by norm_num)
  have hmax : max |(12 : ℚ)| 8 = 12 := by
    rw [habs]; exact max_eq_left (by norm_num)
  refine ⟨by norm_num, ?_, ?_, ?_⟩
  · rw [h1]
  · rw [h2]; exact hmax
  · rw [h3, h2, hmax]; norm_num

/-- C5 counterexample: with `desiredScale = 0.1`, `naturalWidth = 1` and
`containerWidth = 1000` (all positive), `calculateScale` returns the floor
`0.3`, which exceeds the desired scale, refuting the claim that the result
never exceeds `desiredScale` for all positive inputs. -/
theorem calculateScale_exceeds_desired :
    calculateScale (1/10) 1 1000 = 3/10 ∧
    ¬ calculateScale (1/10) 1 1000 ≤ 1/10 := by
  have h : calculateScale (1/10) 1 1000 = 3/10 := by
    simp only [calculateScale]
    rw [if_neg (by norm_num), min_eq_left (by norm_num),
      max_eq_right (by norm_num)]
  exact ⟨h, by rw [h]; norm_num⟩

/-- C5 (amended): for positive widths, `calculateScale` returns
`max (min desiredScale ((containerWidth - 32) / naturalWidth)) 0.3` with the
floor fixed at `0.3`; the result is never below the floor, and it never
exceeds `desiredScale` provided `desiredScale` is at least the floor. -/
theorem calculateScale_spec (scale pageWidth containerWidth : ℚ)
    (hw : 0 < pageWidth) (hc : 0 < containerWidth) :
    calculateScale scale pageWidth containerWidth
      = max (min scale ((containerWidth - 32) / pageWidth)) (3/10) ∧
    (3/10 : ℚ) ≤ calculateScale scale pageWidth containerWidth ∧
    (3/10 ≤ scale → calculateScale scale pageWidth containerWidth ≤ scale) := by
  have hw0 : pageWidth ≠ 0 := ne_of_gt hw
  have hc0 : containerWidth ≠ 0 := ne_of_gt hc
  have hcond : ¬ (pageWidth = 0 ∨ containerWidth = 0) := by
    rintro (h | h) <;> [exact hw0 h; exact hc0 h]
  unfold calculateScale
  rw [if_neg hcond]
  refine ⟨rfl, le_max_right _ _, fun hs => max_le (min_le_left _ _) hs⟩

/-- Witness for C5's amended theorem at `scale = 1`, `pageWidth = 100`,
`containerWidth = 500`. -/
theorem calculateScale_spec_witness :
    (0 : ℚ) < 100 ∧ (0 : ℚ) < 500 ∧
    (calculateScale 1 100 500
        = max (min 1 ((500 - 32) / 100)) (3/10) ∧
      (3/10 : ℚ) ≤ calculateScale 1 100 500 ∧
      ((3/10 : ℚ) ≤ 1 → calculateScale 1 100 500 ≤ 1)) :=
  ⟨by norm_num, by norm_num,
    calculateScale_spec 1 100 500 (by norm_num) (by norm_num)⟩

/-- C1 counterexample: two overlapping `renderPageAsHTML` calls for the same
page, the first for viewport scale 1 and the second for viewport scale 2,
with the first settling last. The claim says the container then reflects
only the newer render (the surface for scale 2); in fact the stale surface
for scale 1 is still appended and the container is not `[2]`. -/
theorem staleRender_counterexample :
    execTrace [] (overlappingRenderTrace 1 2) ≠ [2] ∧
    (1 : ℚ) ∈ execTrace [] (overlappingRenderTrace 1 2) := by
  constructor <;> decide

/-- C1 (amended): the render path has no generation check; when a second
render for the same page is issued while an earlier one is in flight and
the earlier one settles last, the container ends up holding both page
surfaces, with the stale (older-viewport) surface appended after the newer
one. -/
theorem staleRender_not_discarded (vpA vpB : ℚ) :
    execTrace [] (overlappingRenderTrace vpA vpB) = [vpB, vpA] := rfl

/-- C3: in the sweep of `groupSpansIntoParagraphs`, each next run's gap
`run.top - lastBottom` is compared against `0.8` times that run's height; a
larger gap closes the current paragraph and starts a new one with this run
as its sole member, otherwise the run is appended (with `lastBottom`
updated to `max lastBottom run.bottom` in both branches); on the claim's
four runs (tops 100, 110, 100, 140, all of height 10) the first three runs
form one paragraph and the fourth starts a new one. -/
theorem clustering_gap_rule :
    (∀ (cur : List Rect) (lastBottom : ℚ) (r : Rect) (rest : List Rect),
        sweep cur lastBottom (r :: rest)
          = if r.top - lastBottom > r.height * (8/10) then
              cur :: sweep [r] (max lastBottom r.bottom) rest
            else
              sweep (cur ++ [r]) (max lastBottom r.bottom) rest) ∧
    groupSpansIntoParagraphs [exRun1, exRun2, exRun3, exRun4]
      = [[exRun1, exRun3, exRun2], [exRun4]] := by
  refine ⟨fun cur lastBottom r rest => rfl, ?_⟩
  have hsort : sortSpans [exRun1, exRun2, exRun3, exRun4]
      = [exRun1, exRun3, exRun2, exRun4] := by
    simp only [sortSpans, List.insertionSort, List.orderedInsert, spansCompare,
      exRun1, exRun2, exRun3, exRun4]
    norm_num [abs_sub_lt_iff]
  have hsweep : sweep [exRun1] exRun1.bottom [exRun3, exRun2, exRun4]
      = [[exRun1, exRun3, exRun2], [exRun4]] := by
    simp only [sweep, exRun1, exRun2, exRun3, exRun4]
    norm_num [max_def]
  simp only [groupSpansIntoParagraphs]
  rw [hsort]
  exact hsweep

/-- C7: for every nonempty paragraph, the computed bounding box equals the
member runs' extremes (in container coordinates) expanded by the fixed
asymmetric padding: `left = min(run.left) - 4`, `top = min(run.top) - 2`,
`width = (max(run.right) - min(run.left)) + 8`,
`height = (max(run.bottom) - min(run.top)) + 4`; the container offsets
cancel in width and height. -/
theorem paragraphBounds_spec (s : Rect) (rest : List Rect) (cLeft cTop : ℚ) :
    (calculateParagraphBounds (s :: rest) cLeft cTop).left
      = (minLefts s rest - cLeft) - 4 ∧
    (calculateParagraphBounds (s :: rest) cLeft cTop).top
      = (minTops s rest - cTop) - 2 ∧
    (calculateParagraphBounds (s :: rest) cLeft cTop).width
      = (maxRights s rest - minLefts s rest) + 8 ∧
    (calculateParagraphBounds (s :: rest) cLeft cTop).height
      = (maxBottoms s rest - minTops s rest) + 4 := by
  refine ⟨rfl, rfl, ?_, ?_⟩
  · show maxRights s rest - cLeft - (minLefts s rest - cLeft) + 8
        = maxRights s rest - minLefts s rest + 8
    ring
  · show maxBottoms s rest - cTop - (minTops s rest - cTop) + 4
        = maxBottoms s rest - minTops s rest + 4
    ring

/-- Helper: `pageBound` of a loaded document with at least one page is its
page count. -/
theorem pageBound_of_pos (N : ℤ) (hN : 1 ≤ N) : pageBound (some N) = N := by
  show (if N = 0 then 1 else N) = N
  rw [if_neg (by omega)]

/-- Helper: `goToPage` keeps the current page within `[1, N]` when it was
already within `[1, N]`. -/
theorem goToPage_bounds (N cur k : ℤ) (hN : 1 ≤ N) (h1 : 1 ≤ cur)
    (h2 : cur ≤ N) :
    1 ≤ goToPage (some N) cur k ∧ goToPage (some N) cur k ≤ N := by
  unfold goToPage
  rw [pageBound_of_pos N hN]
  split <;> omega

/-- Helper: a navigation step keeps the current page within `[1, N]`. -/
theorem navStep_bounds (N cur : ℤ) (op : NavOp) (hN : 1 ≤ N) (h1 : 1 ≤ cur)
    (h2 : cur ≤ N) :
    1 ≤ navStep (some N) cur op ∧ navStep (some N) cur op ≤ N := by
  cases op <;> exact goToPage_bounds N cur _ hN h1 h2

/-- Helper: folding navigation steps preserves the page-range invariant. -/
theorem foldl_navStep_bounds (N : ℤ) (hN : 1 ≤ N) (ops : List NavOp) :
    ∀ cur : ℤ, 1 ≤ cur → cur ≤ N →
      1 ≤ ops.foldl (navStep (some N)) cur ∧
      ops.foldl (navStep (some N)) cur ≤ N := by
  induction ops with
  | nil => intro cur h1 h2; exact ⟨h1, h2⟩
  | cons op rest ih =>
    intro cur h1 h2
    obtain ⟨g1, g2⟩ := navStep_bounds N cur op hN h1 h2
    exact ih _ g1 g2

/-- C10: starting from page 1 of a loaded document with `totalPages ≥ 1`,
every sequence of navigation requests (`nextPage`, `prevPage`, `goToPage`
with an arbitrary integer) keeps the current page within
`[1, totalPages]`; an out-of-range `goToPage` request leaves the current
page unchanged; the `goToNextPage`/`goToPreviousPage` variant of
src/components/PDFViewer.tsx preserves the same range. -/
theorem navigation_in_range :
    (∀ (N : ℤ), 1 ≤ N → ∀ (ops : List NavOp),
        1 ≤ runNav (some N) ops ∧ runNav (some N) ops ≤ N) ∧
    (∀ (N cur k : ℤ), k < 1 ∨ pageBound (some N) < k →
        goToPage (some N) cur k = cur) ∧
    (∀ (total cur : ℤ), 1 ≤ cur → cur ≤ total →
        1 ≤ goToNextPage total cur ∧ goToNextPage total cur ≤ total ∧
        1 ≤ goToPreviousPage cur ∧ goToPreviousPage cur ≤ total) := by
  refine ⟨?_, ?_, ?_⟩
  · intro N hN ops
    exact foldl_navStep_bounds N hN ops 1 le_rfl hN
  · intro N cur k hk
    unfold goToPage
    rw [if_neg (by omega)]
  · intro total cur h1 h2
    unfold goToNextPage goToPreviousPage
    refine ⟨?_, ?_, ?_, ?_⟩ <;> split <;> omega

/-- Witness for C10: with 3 pages, the request sequence
next, go-to-page 99, previous ends within range (the out-of-range jump is
ignored). -/
theorem navigation_in_range_witness :
    (1 : ℤ) ≤ 3 ∧
    (1 ≤ runNav (some 3) [NavOp.next, NavOp.goto 99, NavOp.prev] ∧
      runNav (some 3) [NavOp.next, NavOp.goto 99, NavOp.prev] ≤ 3) :=
  ⟨by norm_num,
    navigation_in_range.1 3 (by norm_num) [NavOp.next, NavOp.goto 99, NavOp.prev]⟩

/-- C8: for every outline item whose destination resolves to no page number
or to a page outside `[1, numPages || 1]`, `handleItemClick` performs no
navigation: the current page stays unchanged. The handler wraps all
collaborator calls in try/catch, so no error reaches the caller; resolution
failures are modelled as `none`. -/
theorem brokenDestination_no_navigation (env : DocEnv) (dest : Dest)
    (numPages : Option ℤ) (currentPage : ℤ)
    (h : ∀ n, resolveTarget env dest = some n →
      n < 1 ∨ pageBound numPages < n) :
    handleItemClick env dest numPages currentPage = currentPage := by
  unfold handleItemClick
  cases hr : resolveTarget env dest with
  | none => rfl
  | some n =>
    have hn := h n hr
    show (if n ≠ 0 ∧ 1 ≤ n ∧ n ≤ pageBound numPages then n else currentPage)
        = currentPage
    rw [if_neg (by omega)]

/-- Witness for C8: a named destination that the document cannot resolve, in
a 5-page document currently showing page 3, leaves the current page at 3. -/
theorem brokenDestination_no_navigation_witness :
    (∀ n : ℤ, resolveTarget brokenEnv (Dest.named 0) = some n →
      n < 1 ∨ pageBound (some 5) < n) ∧
    handleItemClick brokenEnv (Dest.named 0) (some 5) 3 = 3 := by
  have h : ∀ n : ℤ, resolveTarget brokenEnv (Dest.named 0) = some n →
      n < 1 ∨ pageBound (some 5) < n := by
    intro n hn
    simp [resolveTarget, brokenEnv] at hn
  exact ⟨h, brokenDestination_no_navigation brokenEnv (Dest.named 0) (some 5) 3 h⟩

/-- Helper: a list of cleared flags contains no selected wrapper. -/
theorem count_map_false (l : List Bool) :
    (l.map (fun _ => false)).count true = 0 := by
  induction l with
  | nil => rfl
  | cons b rest ih => simpa [List.count_cons] using ih

/-- Helper: every flag of a cleared list reads `false`. -/
theorem map_false_getD (l : List Bool) (j : ℕ) :
    (l.map (fun _ => false)).getD j false = false := by
  induction l generalizing j with
  | nil => simp
  | cons b rest ih =>
    cases j with
    | zero => simp
    | succ j => simp only [List.map_cons, List.getD_cons_succ]; exact ih j

/-- Helper: after any paragraph click, at most one wrapper is selected. -/
theorem handleClick_count_le_one (sel : Selection) (i : ℕ) :
    (handleClick sel i).count true ≤ 1 := by
  induction sel generalizing i with
  | nil => simp [handleClick]
  | cons b rest ih =>
    cases i with
    | zero =>
      simp only [handleClick, List.count_cons, count_map_false]
      cases b <;> simp
    | succ i =>
      simpa [handleClick, List.count_cons] using ih i

/-- Helper: after a click on wrapper `i`, every wrapper other than `i` is
unselected. -/
theorem handleClick_getD_ne (sel : Selection) (i j : ℕ) (h : j ≠ i) :
    (handleClick sel i).getD j false = false := by
  induction sel generalizing i j with
  | nil => simp [handleClick]
  | cons b rest ih =>
    cases i with
    | zero =>
      cases j with
      | zero => exact absurd rfl h
      | succ j =>
        simp only [handleClick, List.getD_cons_succ]
        exact map_false_getD rest j
    | succ i =>
      cases j with
      | zero => simp [handleClick]
      | succ j =>
        simpa [handleClick] using ih i j (fun hh => h (by rw [hh]))

/-- Helper: a click on wrapper `i` toggles its own flag. -/
theorem handleClick_getD_self (sel : Selection) (i : ℕ) (h : i < sel.length) :
    (handleClick sel i).getD i false = !(sel.getD i false) := by
  induction sel generalizing i with
  | nil => simp at h
  | cons b rest ih =>
    cases i with
    | zero => simp [handleClick]
    | succ i =>
      simpa [handleClick] using ih i (by simpa using h)

/-- Helper: the number of selected wrappers after a click on wrapper `i` is
one when `i` was unselected, zero when it was selected. -/
theorem handleClick_count_eq (sel : Selection) (i : ℕ) (h : i < sel.length) :
    (handleClick sel i).count true = if sel.getD i false then 0 else 1 := by
  induction sel generalizing i with
  | nil => simp at h
  | cons b rest ih =>
    cases i with
    | zero =>
      simp only [handleClick, List.count_cons, count_map_false]
      cases b <;> simp
    | succ i =>
      simpa [handleClick, List.count_cons] using ih i (by simpa using h)

/-- Helper: a selected flag lies within the list. -/
theorem getD_true_lt_length (sel : Selection) (i : ℕ)
    (h : sel.getD i false = true) : i < sel.length := by
  induction sel generalizing i with
  | nil => simp at h
  | cons b rest ih =>
    cases i with
    | zero => simp
    | succ i => simpa using ih i (by simpa using h)

/-- Helper: a selected flag witnesses a positive count. -/
theorem getD_true_count_pos (sel : Selection) (i : ℕ)
    (h : sel.getD i false = true) : 0 < sel.count true := by
  induction sel generalizing i with
  | nil => simp at h
  | cons b rest ih =>
    cases i with
    | zero =>
      simp only [List.getD_cons_zero] at h
      simp [List.count_cons, h]
    | succ i =>
      have := ih i (by simpa using h)
      simp only [List.count_cons]
      omega

/-- Helper: two distinct selected wrappers force a count of at least two. -/
theorem two_true_count (sel : Selection) (A B : ℕ) (hAB : A ≠ B)
    (hA : sel.getD A false = true) (hB : sel.getD B false = true) :
    2 ≤ sel.count true := by
  induction sel generalizing A B with
  | nil => simp at hA
  | cons b rest ih =>
    cases A with
    | zero =>
      cases B with
      | zero => exact absurd rfl hAB
      | succ B =>
        simp only [List.getD_cons_zero] at hA
        have h1 := getD_true_count_pos rest B (by simpa using hB)
        rw [List.count_cons, hA, if_pos (by decide : ((true == true) = true))]
        omega
    | succ A =>
      cases B with
      | zero =>
        simp only [List.getD_cons_zero] at hB
        have h1 := getD_true_count_pos rest A (by simpa using hA)
        rw [List.count_cons, hB, if_pos (by decide : ((true == true) = true))]
        omega
      | succ B =>
        have h1 := ih A B (by omega) (by simpa using hA) (by simpa using hB)
        rw [List.count_cons]
        omega

/-- Helper: with at most one selected wrapper, a wrapper other than the
selected one is unselected. -/
theorem only_selected (sel : Selection) (A B : ℕ) (hc : sel.count true ≤ 1)
    (hA : sel.getD A false = true) (hBA : B ≠ A) :
    sel.getD B false = false := by
  cases hB : sel.getD B false with
  | false => rfl
  | true => exact absurd hc (by have := two_true_count sel A B (fun h => hBA h.symm) hA hB; omega)

/-- Helper: any single click leaves at most one wrapper selected. -/
theorem applyClick_count_le_one (sel : Selection) (c : Click) :
    (applyClick sel c).count true ≤ 1 := by
  cases c with
  | onRegion i => exact handleClick_count_le_one sel i
  | outside =>
    show (handleGlobalClick sel).count true ≤ 1
    rw [show handleGlobalClick sel = sel.map (fun _ => false) from rfl,
      count_map_false]
    omega

/-- Helper: a click sequence preserves the at-most-one-selected invariant. -/
theorem applyClicks_count_le_one (clicks : List Click) :
    ∀ sel : Selection, sel.count true ≤ 1 →
      (applyClicks sel clicks).count true ≤ 1 := by
  induction clicks with
  | nil => intro sel h; exact h
  | cons c rest ih =>
    intro sel _
    exact ih (applyClick sel c) (applyClick_count_le_one sel c)

/-- C2: for every sequence of clicks on one page's overlay starting with no
selection, at most one paragraph wrapper is selected at any time; clicking
wrapper B while wrapper A is selected deselects A and selects B with
exactly one wrapper selected afterwards; clicking an already-selected
wrapper deselects it, leaving no wrapper selected. -/
theorem selection_exclusivity :
    (∀ (n : ℕ) (clicks : List Click),
        (applyClicks (List.replicate n false) clicks).count true ≤ 1) ∧
    (∀ (sel : Selection) (A B : ℕ), A < sel.length → B < sel.length →
        A ≠ B → sel.getD A false = true → sel.count true ≤ 1 →
        (handleClick sel B).getD A false = false ∧
        (handleClick sel B).getD B false = true ∧
        (handleClick sel B).count true = 1) ∧
    (∀ (sel : Selection) (B : ℕ), sel.getD B false = true →
        (handleClick sel B).count true = 0) := by
  refine ⟨?_, ?_, ?_⟩
  · intro n clicks
    refine applyClicks_count_le_one clicks _ ?_
    simp [List.count_replicate]
  · intro sel A B hAlt hBlt hAB hA hc
    have hB : sel.getD B false = false :=
      only_selected sel A B hc hA (fun h => hAB h.symm)
    refine ⟨handleClick_getD_ne sel B A hAB, ?_, ?_⟩
    · rw [handleClick_getD_self sel B hBlt, hB]
      rfl
    · rw [handleClick_count_eq sel B hBlt, hB]
      rfl
  · intro sel B hB
    rw [handleClick_count_eq sel B (getD_true_lt_length sel B hB), hB]
    rfl

/-- Witness for C2: on three wrappers with the first selected, clicking the
second deselects the first, selects the second, and leaves exactly one
wrapper selected. -/
theorem selection_exclusivity_witness :
    ((0 : ℕ) < ([true, false, false] : Selection).length ∧
      (1 : ℕ) < ([true, false, false] : Selection).length ∧
      (0 : ℕ) ≠ 1 ∧
      ([true, false, false] : Selection).getD 0 false = true ∧
      ([true, false, false] : Selection).count true ≤ 1) ∧
    ((handleClick [true, false, false] 1).getD 0 false = false ∧
      (handleClick [true, false, false] 1).getD 1 false = true ∧
      (handleClick [true, false, false] 1).count true = 1) :=
  ⟨⟨by decide, by decide, by decide, by decide, by decide⟩,
    selection_exclusivity.2.1 [true, false, false] 0 1 (by decide) (by decide)
      (by decide) (by decide) (by decide)⟩

/-- Helper: the sweep distributes its input runs over the output paragraphs
without loss or duplication. -/
theorem sweep_flatten (rest : List Rect) :
    ∀ (cur : List Rect) (lastBottom : ℚ),
      (sweep cur lastBottom rest).flatten = cur ++ rest := by
  induction rest with
  | nil => intro cur lastBottom; simp [sweep]
  | cons r rest ih =>
    intro cur lastBottom
    simp only [sweep]
    split
    · simp [ih]
    · rw [ih]
      simp

/-- Helper: every paragraph emitted by the sweep is nonempty when the
current paragraph is. -/
theorem sweep_ne_nil (rest : List Rect) :
    ∀ (cur : List Rect) (lastBottom : ℚ), cur ≠ [] →
      ∀ p ∈ sweep cur lastBottom rest, p ≠ [] := by
  induction rest with
  | nil =>
    intro cur lastBottom hcur p hp
    simp only [sweep, List.mem_singleton] at hp
    rw [hp]
    exact hcur
  | cons r rest ih =>
    intro cur lastBottom hcur p hp
    simp only [sweep] at hp
    split at hp
    · rcases List.mem_cons.mp hp with h | h
      · rw [h]; exact hcur
      · exact ih [r] _ (by simp) p h
    · exact ih (cur ++ [r]) _ (by simp) p hp

/-- Helper: flattening the clustered paragraphs recovers the sorted runs. -/
theorem group_flatten (spans : List Rect) :
    (groupSpansIntoParagraphs spans).flatten = sortSpans spans := by
  rcases h : sortSpans spans with _ | ⟨s, rest⟩
  · simp [groupSpansIntoParagraphs, h]
  · simp [groupSpansIntoParagraphs, h, sweep_flatten]

/-- C6: `groupSpansIntoParagraphs` partitions its input: the output
paragraphs joined together are a permutation of the input runs (so every
input run appears in exactly one output paragraph), the paragraph sizes sum
to the input length, no output paragraph is empty, and an empty input
yields an empty output list. -/
theorem clustering_partition (spans : List Rect) :
    ((groupSpansIntoParagraphs spans).flatten).Perm spans ∧
    ((groupSpansIntoParagraphs spans).map List.length).sum = spans.length ∧
    (groupSpansIntoParagraphs spans).all (fun p => !p.isEmpty) = true ∧
    groupSpansIntoParagraphs ([] : List Rect) = [] := by
  have hperm : ((groupSpansIntoParagraphs spans).flatten).Perm spans := by
    rw [group_flatten]
    exact List.perm_insertionSort _ spans
  refine ⟨hperm, ?_, ?_, rfl⟩
  · rw [← List.length_flatten]
    exact hperm.length_eq
  · rw [List.all_eq_true]
    intro p hp
    have hne : p ≠ [] := by
      rcases h : sortSpans spans with _ | ⟨s, rest⟩
      · rw [groupSpansIntoParagraphs, h] at hp
        simp at hp
      · rw [groupSpansIntoParagraphs, h] at hp
        exact sweep_ne_nil rest [s] s.bottom (by simp) p hp
    rcases p with _ | ⟨a, l⟩
    · exact absurd rfl hne
    · rfl

/-- Helper: a string trims to empty exactly when all of its characters are
JavaScript whitespace. -/
theorem jsTrim_eq_nil_iff (s : List Char) :
    jsTrim s = [] ↔ ∀ c ∈ s, jsWhitespace c = true := by
  unfold jsTrim
  rw [List.reverse_eq_nil_iff, List.dropWhile_eq_nil_iff]
  constructor
  · intro h c hc
    by_cases hw : jsWhitespace c = true
    · exact hw
    · exfalso
      have hsplit := List.takeWhile_append_dropWhile (p := jsWhitespace) (l := s)
      rcases List.mem_append.mp (by rw [hsplit]; exact hc) with hmem | hmem
      · exact hw (List.mem_takeWhile_imp hmem)
      · exact hw (h c (by simpa using hmem))
  · intro h c hc
    exact h c (List.dropWhile_subset _ (by simpa using hc))

/-- Helper: emptiness of the trimmed string is the negation of having a
non-whitespace character. -/
theorem isEmpty_jsTrim (s : List Char) :
    (jsTrim s).isEmpty = !(s.any fun c => !jsWhitespace c) := by
  rcases hws : s.any (fun c => !jsWhitespace c) with _ | _
  · have hall : ∀ c ∈ s, jsWhitespace c = true := by
      intro c hc
      have := List.any_eq_false.mp hws c hc
      simpa using this
    rw [(jsTrim_eq_nil_iff s).mpr hall]
    rfl
  · rcases List.any_eq_true.mp hws with ⟨c, hc, hcw⟩
    have hne : jsTrim s ≠ [] := by
      intro hnil
      have := (jsTrim_eq_nil_iff s).mp hnil c hc
      simp [this] at hcw
    rcases h : jsTrim s with _ | ⟨a, l⟩
    · exact absurd h hne
    · rfl

/-- Helper: one step of text-layer construction. -/
theorem buildTextLayer_cons (viewportHeight : ℚ) (it : TextItem)
    (rest : List TextItem) :
    buildTextLayer viewportHeight (it :: rest)
      = if (jsTrim it.str).isEmpty
        then buildTextLayer viewportHeight rest
        else { str := it.str, pos := projectRun it.transform viewportHeight }
          :: buildTextLayer viewportHeight rest := by
  rcases h : jsTrim it.str with _ | ⟨a, l⟩ <;>
    simp [buildTextLayer, List.filterMap_cons, h]

/-- C9: the HTML text layer contains an element for a text run exactly when
the run's string has non-whitespace content: the layer equals the list of
projected elements of the runs whose strings contain a non-whitespace
character, in input order. -/
theorem textLayer_skips_whitespace (viewportHeight : ℚ)
    (items : List TextItem) :
    buildTextLayer viewportHeight items
      = (items.filter
          (fun it => it.str.any (fun c => !jsWhitespace c))).map
          (fun it =>
            { str := it.str
              pos := projectRun it.transform viewportHeight }) := by
  induction items with
  | nil => rfl
  | cons it rest ih =>
    rw [buildTextLayer_cons, List.filter_cons, isEmpty_jsTrim]
    rcases hws : it.str.any (fun c => !jsWhitespace c) with _ | _ <;>
      simp [ih]

end PDFViewer
